import Mathlib

/-!
Verification of the ravn operator-console core (event aggregation,
threat scoring, control state machine) against its specification.

The Rust source (`app_cli_dashboard.rs`, `app_cli_main.rs`) is embedded
shallowly: `VecDeque` becomes `List` (push_back = append, pop_front =
tail), `BTreeMap<String, u64>` becomes an association list kept sorted
by key (the iteration order of a `BTreeMap` is ascending key order),
`f64`/`f32` arithmetic on the scorer's exactly-representable constants
becomes `ℚ`, and wall-clock reads (`SystemTime::now`) become an explicit
`now : Nat` argument.
-/

/-- `EventData` from `app_cli_dashboard.rs`: one decoded security event. -/
structure EventData where
  timestamp : Nat
  event_type : String
  pid : Nat
  comm : String
  file : String
  uid : Nat
  deriving Repr, DecidableEq

/-- `SystemStats` from `app_cli_dashboard.rs`: the point-in-time host
snapshot (cpu and memory in percent). -/
structure SystemStats where
  cpu_usage : ℚ
  memory_usage : ℚ
  load_avg : ℚ
  uptime : Nat
  processes : Nat
  deriving Repr, DecidableEq

/-- Insert-or-increment into a `BTreeMap<String, u64>` modelled as an
association list sorted by key: `*map.entry(k).or_insert(0) += 1`.
Keeping the list sorted mirrors the map's ascending-key iteration order. -/
def btreeIncr : List (String × Nat) → String → List (String × Nat)
  | [], k => [(k, 1)]
  | (k', v) :: rest, k =>
    if k < k' then (k, 1) :: (k', v) :: rest
    else if k = k' then (k', v + 1) :: rest
    else (k', v) :: btreeIncr rest k

/-- `map.get(k).unwrap_or(&0)`: lookup with default 0. -/
def btreeFind : List (String × Nat) → String → Nat
  | [], _ => 0
  | (k', v) :: rest, k => if k = k' then v else btreeFind rest k

/-- Bounded push from `add_event` / `render`: `push_back(x)` followed by
`if len > cap { pop_front() }`. -/
def pushBounded (cap : Nat) (xs : List α) (x : α) : List α :=
  let ys := xs ++ [x]
  if ys.length > cap then ys.tail else ys

/-- The `Dashboard` struct from `app_cli_dashboard.rs`. -/
structure Dashboard where
  events : List EventData
  event_counters : List (String × Nat)
  process_counters : List (String × Nat)
  anomaly_scores : List ℚ
  system_stats : SystemStats
  total_events : Nat
  start_time : Nat
  current_tab : Nat
  show_help : Bool
  paused : Bool
  deriving Repr, DecidableEq

/-- `Dashboard::new()`; `start` is the wall clock at construction. -/
def Dashboard.new (start : Nat) : Dashboard where
  events := []
  event_counters := []
  process_counters := []
  anomaly_scores := []
  system_stats :=
    { cpu_usage := 0, memory_usage := 0, load_avg := 0, uptime := 0, processes := 0 }
  total_events := 0
  start_time := start
  current_tab := 0
  show_help := false
  paused := false

/-- `Dashboard::add_event` (`app_cli_dashboard.rs` lines 71–84): no-op
when paused, else append to the bounded log (capacity 1000), bump the
per-category and per-actor counters and the total. -/
def Dashboard.add_event (d : Dashboard) (e : EventData) : Dashboard :=
  if d.paused then d
  else
    { d with
      events := pushBounded 1000 d.events e
      event_counters := btreeIncr d.event_counters e.event_type
      process_counters := btreeIncr d.process_counters e.comm
      total_events := d.total_events + 1 }

/-- `Dashboard::calculate_anomaly_score` (`app_cli_dashboard.rs` lines
98–133). `now` is the wall clock the source reads via `SystemTime::now`;
the source computes `elapsed = now - start_time` in `u64` (here truncated
`Nat` subtraction). -/
def Dashboard.calculate_anomaly_score (d : Dashboard) (now : Nat) : ℚ :=
  if d.total_events = 0 then 0
  else
    let rate : ℚ := (d.total_events : ℚ) / ((now - d.start_time + 1 : Nat) : ℚ)
    let execFrac : ℚ := (btreeFind d.event_counters "exec" : ℚ) / (d.total_events : ℚ)
    let s1 : ℚ :=
      if rate > 50 then 3 else if rate > 30 then 2
      else if rate > 15 then 1 else if rate > 5 then 0.5 else 0
    let s2 : ℚ :=
      if execFrac > 0.2 then 2 else if execFrac > 0.1 then 1.5
      else if execFrac > 0.05 then 0.8 else 0
    let s3 : ℚ :=
      if d.system_stats.cpu_usage > 90 then 1.5
      else if d.system_stats.cpu_usage > 70 then 1 else 0
    let s4 : ℚ :=
      if d.system_stats.memory_usage > 90 then 1
      else if d.system_stats.memory_usage > 80 then 0.5 else 0
    let s5 : ℚ :=
      if d.total_events > 5000 then 1
      else if d.total_events > 2000 then 0.5 else 0
    min (s1 + s2 + s3 + s4 + s5) 5

/-- The score-recording step at the top of `Dashboard::render`
(`app_cli_dashboard.rs` lines 139–143): compute the current score and
push it into the bounded history (capacity 60). Rendering proper only
reads state. -/
def Dashboard.record_score (d : Dashboard) (now : Nat) : Dashboard :=
  { d with anomaly_scores := pushBounded 60 d.anomaly_scores (d.calculate_anomaly_score now) }

/-- The `'r'` key handler in `app_cli_main.rs` (lines 199–206): clear the
log, both counter maps, the score history, and zero the total. -/
def Dashboard.reset (d : Dashboard) : Dashboard :=
  { d with
    events := []
    event_counters := []
    process_counters := []
    anomaly_scores := []
    total_events := 0 }

/-- Keys handled by the dashboard input loop in `app_cli_main.rs`
(lines 140–219). Only the arms that touch `Dashboard` state are
modelled; `q`/`s`/`x` act on the external agent process or the loop
flag and leave the dashboard unchanged. -/
inductive Key where
  | keyQ | keyH | keyS | keyX | keyP | keyR | keyTab | keyBackTab
  | key1 | key2 | key3 | key4 | key5 | other
  deriving Repr, DecidableEq

/-- The key `match` in `app_cli_main.rs` (lines 142–218), restricted to
its effect on the `Dashboard` value. -/
def Dashboard.handleKey (d : Dashboard) : Key → Dashboard
  | .keyH => { d with show_help := !d.show_help }
  | .keyP => { d with paused := !d.paused }
  | .keyR => d.reset
  | .keyTab => { d with current_tab := (d.current_tab + 1) % 5 }
  | .keyBackTab =>
    { d with current_tab := if d.current_tab = 0 then 4 else d.current_tab - 1 }
  | .key1 => { d with current_tab := 0 }
  | .key2 => { d with current_tab := 1 }
  | .key3 => { d with current_tab := 2 }
  | .key4 => { d with current_tab := 3 }
  | .key5 => { d with current_tab := 4 }
  | _ => d

/-- One observable operation of the main loop on the aggregator: an
ingestion, a render tick (which records a score), the reset key, or a
pause toggle. -/
inductive Op where
  | ingest (e : EventData)
  | tick (now : Nat)
  | reset
  | setPaused (b : Bool)
  deriving Repr

/-- Effect of one `Op` on the dashboard. -/
def Dashboard.step (d : Dashboard) : Op → Dashboard
  | .ingest e => d.add_event e
  | .tick now => d.record_score now
  | .reset => d.reset
  | .setPaused b => { d with paused := b }

/-- Run a sequence of operations. -/
def run (d : Dashboard) (ops : List Op) : Dashboard :=
  ops.foldl Dashboard.step d

/-- Instrumented step: alongside the dashboard it carries the unbounded
list of events actually ingested since the last reset and the unbounded
list of scores recorded since the last reset. -/
def stepH (s : Dashboard × List EventData × List ℚ) (op : Op) :
    Dashboard × List EventData × List ℚ :=
  match op with
  | .ingest e =>
    (s.1.add_event e, if s.1.paused then s.2.1 else s.2.1 ++ [e], s.2.2)
  | .tick now =>
    (s.1.record_score now, s.2.1, s.2.2 ++ [s.1.calculate_anomaly_score now])
  | .reset => (s.1.reset, [], [])
  | .setPaused b => ({ s.1 with paused := b }, s.2.1, s.2.2)

/-- Instrumented run. -/
def runH (s : Dashboard × List EventData × List ℚ) (ops : List Op) :
    Dashboard × List EventData × List ℚ :=
  ops.foldl stepH s

/-- The last `n` elements of a list, in order. -/
def lastN (n : Nat) (xs : List α) : List α :=
  xs.drop (xs.length - n)

/-- The bounded-window invariant tying the dashboard to the unbounded
histories. -/
def InvH (s : Dashboard × List EventData × List ℚ) : Prop :=
  s.1.events = lastN 1000 s.2.1 ∧ s.1.anomaly_scores = lastN 60 s.2.2

/-- The concrete scorer input of claim C2: 100 events, 25 of them `exec`,
CPU 95 %, memory 85 %, one second elapsed. -/
def c2Dashboard : Dashboard :=
  { Dashboard.new 0 with
    total_events := 100
    event_counters := [("exec", 25), ("open", 75)]
    system_stats :=
      { cpu_usage := 95, memory_usage := 85, load_avg := 0, uptime := 0, processes := 0 } }

/-- A sample event used as concrete witness input. -/
def sampleEvent : EventData :=
  { timestamp := 0, event_type := "exec", pid := 1, comm := "bash", file := "/bin/ls", uid := 0 }

/-- A paused dashboard used as concrete witness input. -/
def pausedDash : Dashboard :=
  { Dashboard.new 3 with paused := true }

/-- A JSON value as produced by `serde_json::from_str::<serde_json::Value>`.
A feed line that fails JSON parsing altogether is represented as
`none : Option Json`. -/
inductive Json where
  | null
  | bool (b : Bool)
  | num (n : Int)
  | str (s : String)
  | arr (elems : List Json)
  | obj (fields : List (String × Json))

/-- Field lookup inside a JSON object's field list. -/
def lookupField : List (String × Json) → String → Option Json
  | [], _ => none
  | (k', v) :: rest, k => if k' = k then some v else lookupField rest k

/-- `serde_json::Value::get(key)`: a field of an object, `None` for any
non-object value. -/
def Json.member : Json → String → Option Json
  | .obj fields, k => lookupField fields k
  | _, _ => none

/-- `serde_json::Value::as_str`. -/
def Json.asStr : Json → Option String
  | .str s => some s
  | _ => none

/-- `serde_json::Value::as_u64`: `Some` exactly for numbers that are
non-negative integers within `u64` range; a literal beyond `u64::MAX`
is stored by serde_json as `f64` and `as_u64` returns `None` for it. -/
def Json.asU64 : Json → Option Nat
  | .num n => if 0 ≤ n ∧ n < 2 ^ 64 then some n.toNat else none
  | _ => none

/-- `true` exactly on JSON objects. -/
def Json.isObj : Json → Bool
  | .obj _ => true
  | _ => false

/-- The `EventData` construction in `app_cli_main.rs` lines 116–123:
recognized fields with defaults (`"unknown"` for `etype`/`comm`, `""`
for `file`, `0` for `pid`/`uid`); `pid` and `uid` undergo the source's
`as u32` cast, which wraps the `u64` value modulo `2 ^ 32`; the
timestamp is stamped from the receiver's wall clock `now`, never taken
from the line. -/
def extractEvent (now : Nat) (v : Json) : EventData :=
  { timestamp := now
    event_type := ((v.member "etype").bind Json.asStr).getD "unknown"
    pid := (((v.member "pid").bind Json.asU64).getD 0) % 2 ^ 32
    comm := ((v.member "comm").bind Json.asStr).getD "unknown"
    file := ((v.member "file").bind Json.asStr).getD ""
    uid := (((v.member "uid").bind Json.asU64).getD 0) % 2 ^ 32 }

/-- One iteration of the event-drain loop in `app_cli_main.rs` lines
113–128: `parsed` is the outcome of `serde_json::from_str` on the line.
A parse failure (`none`) falls through the `if let` — the line is
dropped and nothing happens; any parsed value is turned into an event
and handed to `add_event`. -/
def processLine (d : Dashboard) (now : Nat) (parsed : Option Json) : Dashboard :=
  match parsed with
  | some v => d.add_event (extractEvent now v)
  | none => d

/-- The display-label mapping of `render_event_rates`
(`app_cli_dashboard.rs` lines 260–268). -/
def eventLabel (event_type : String) : String :=
  if event_type = "exec" then "Process Execution"
  else if event_type = "open" then "File Access"
  else if event_type = "connect" then "Network Connection"
  else if event_type = "accept" then "Network Accept"
  else if event_type = "setuid" then "Privilege Escalation"
  else if event_type = "ptrace" then "Process Tracing"
  else event_type

/-- The Event Categories panel of the Overview tab (`render_event_rates`,
`app_cli_dashboard.rs` lines 257–277): the first six entries of the
category counter map in its iteration order, with display labels. -/
def renderEventRates (d : Dashboard) : List (String × Nat) :=
  (d.event_counters.take 6).map (fun p => (eventLabel p.1, p.2))

/-- The category names of the Overview panel, in display order. -/
def overviewCategoryOrder (d : Dashboard) : List String :=
  (d.event_counters.take 6).map Prod.fst

/-- The keys of a modelled `BTreeMap` are strictly ascending. -/
def keysSorted (m : List (String × Nat)) : Prop :=
  (m.map Prod.fst).Pairwise (· < ·)

/-- An `"open"` event used as concrete input. -/
def openEvent : EventData :=
  { timestamp := 0, event_type := "open", pid := 2, comm := "cat",
    file := "/etc/hosts", uid := 0 }

/-- Concrete scorer-purity inputs: same four scorer inputs as
`c2Dashboard`, different log, tab and help flag. -/
def c8Left : Dashboard :=
  { c2Dashboard with events := [sampleEvent], current_tab := 2, show_help := true }

/-- Concrete scorer-purity inputs: same four scorer inputs as
`c2Dashboard`, different actor counters and pause flag. -/
def c8Right : Dashboard :=
  { c2Dashboard with paused := true, process_counters := [("bash", 9)] }

theorem lastN_length (n : Nat) (xs : List α) :
    (lastN n xs).length = min n xs.length := by
  simp [lastN]
  omega

theorem lastN_nil (n : Nat) : lastN n ([] : List α) = [] := by
  simp [lastN]

/-- A bounded push on a list that is already the last-`cap` window of
`xs` yields the last-`cap` window of `xs ++ [x]`. -/
theorem pushBounded_lastN (cap : Nat) (hcap : 0 < cap) (xs : List α) (x : α) :
    pushBounded cap (lastN cap xs) x = lastN cap (xs ++ [x]) := by
  have hlen : (lastN cap xs).length = min cap xs.length := lastN_length cap xs
  unfold pushBounded
  by_cases h : xs.length < cap
  · have h0 : xs.length - cap = 0 := by omega
    have hx : lastN cap xs = xs := by simp [lastN, h0]
    rw [hx]
    rw [if_neg (by simp; omega)]
    have h1 : xs.length + 1 - cap = 0 := by omega
    simp [lastN, h1]
  · -- xs.length ≥ cap: the window is full, the oldest entry is dropped
    have hfull : (lastN cap xs).length = cap := by omega
    have hgt : (lastN cap xs ++ [x]).length > cap := by simp [hfull]
    rw [if_pos hgt]
    have h1 : (1 : Nat) ≤ (lastN cap xs).length := by omega
    rw [← List.drop_one, List.drop_append_of_le_length h1]
    unfold lastN
    rw [List.drop_one, List.tail_drop, List.drop_append_of_le_length (by simp; omega)]
    have h2 : (xs ++ [x]).length - cap = xs.length - cap + 1 := by simp; omega
    rw [h2]

theorem stepH_inv (s : Dashboard × List EventData × List ℚ) (op : Op)
    (h : InvH s) : InvH (stepH s op) := by
  obtain ⟨h1, h2⟩ := h
  cases op with
  | ingest e =>
    by_cases hp : s.1.paused
    · constructor <;> simp [stepH, Dashboard.add_event, hp, h1, h2]
    · constructor <;>
        simp [stepH, Dashboard.add_event, hp, h1, h2, pushBounded_lastN]
  | tick now =>
    constructor <;>
      simp [stepH, Dashboard.record_score, h1, h2, pushBounded_lastN]
  | reset =>
    constructor <;> simp [stepH, Dashboard.reset, lastN_nil]
  | setPaused b =>
    constructor <;> simp [stepH, h1, h2]

theorem runH_inv (ops : List Op) (s : Dashboard × List EventData × List ℚ)
    (h : InvH s) : InvH (runH s ops) := by
  induction ops generalizing s with
  | nil => exact h
  | cons op rest ih => exact ih (stepH s op) (stepH_inv s op h)

/-- The dashboard component of the instrumented run agrees with `run`. -/
theorem runH_fst (ops : List Op) (s : Dashboard × List EventData × List ℚ) :
    (runH s ops).1 = run s.1 ops := by
  induction ops generalizing s with
  | nil => rfl
  | cons op rest ih =>
    show (runH (stepH s op) rest).1 = run (s.1.step op) rest
    rw [ih]
    cases op <;> rfl

/-- Claim C1: the threat score lies in `[0, 5]` for every aggregator
state and snapshot, and is exactly `0` whenever `total_events = 0`. -/
theorem score_bounded_and_zero_on_empty (d : Dashboard) (now : Nat) :
    (0 ≤ d.calculate_anomaly_score now ∧ d.calculate_anomaly_score now ≤ 5) ∧
    (d.total_events = 0 → d.calculate_anomaly_score now = 0) := by
  unfold Dashboard.calculate_anomaly_score
  refine ⟨?_, ?_⟩
  · split
    · norm_num
    · constructor
      · apply le_min _ (by norm_num)
        have : (0:ℚ) ≤ 0 := le_refl 0
        repeat' apply add_nonneg
        all_goals split <;> norm_num
        all_goals split <;> norm_num
        all_goals split <;> norm_num
        all_goals split <;> norm_num
      · split
        · norm_num
        · exact min_le_right _ _
  · intro h
    simp [h]

/-- Claim C1 witness: at a fresh dashboard the score is 0 and in bounds. -/
theorem score_bounded_and_zero_on_empty_witness :
    (0 ≤ (Dashboard.new 0).calculate_anomaly_score 7 ∧
      (Dashboard.new 0).calculate_anomaly_score 7 ≤ 5) ∧
    (Dashboard.new 0).calculate_anomaly_score 7 = 0 :=
  ⟨(score_bounded_and_zero_on_empty (Dashboard.new 0) 7).1,
   (score_bounded_and_zero_on_empty (Dashboard.new 0) 7).2 rfl⟩

/-- Claim C2: with 100 events over elapsed 1 s (rate 100/2 = 50, the
`>30` tier), exec ratio 0.25 (`>0.2` tier), CPU 95 (`>90` tier), memory
85 (`>80` tier) and no volume tier, the term sum is 2+2+1.5+0.5+0 = 6
and the returned score is the clamp `min 6 5 = 5`. -/
theorem score_clamped_at_c2_input :
    c2Dashboard.calculate_anomaly_score 1 = min (2 + 2 + 1.5 + 0.5 + 0 : ℚ) 5 ∧
    c2Dashboard.calculate_anomaly_score 1 = 5 := by
  have h : c2Dashboard.calculate_anomaly_score 1 = 5 := by
    unfold c2Dashboard Dashboard.calculate_anomaly_score
    norm_num [Dashboard.new, btreeFind, min_def]
  refine ⟨h.trans ?_, h⟩
  norm_num [min_def]

/-- Claim C3: after any sequence of operations from a fresh dashboard,
the event log is exactly the last (at most) 1000 events ingested since
the last reset, in ingestion order, and the score history is exactly the
last (at most) 60 recorded scores in order — hence both are bounded and
evict strictly FIFO. -/
theorem log_and_history_bounded_fifo (start : Nat) (ops : List Op) :
    (run (Dashboard.new start) ops).events =
      lastN 1000 (runH (Dashboard.new start, [], []) ops).2.1 ∧
    (run (Dashboard.new start) ops).anomaly_scores =
      lastN 60 (runH (Dashboard.new start, [], []) ops).2.2 ∧
    (run (Dashboard.new start) ops).events.length ≤ 1000 ∧
    (run (Dashboard.new start) ops).anomaly_scores.length ≤ 60 := by
  have h0 : InvH (Dashboard.new start, [], []) :=
    ⟨(lastN_nil 1000).symm, (lastN_nil 60).symm⟩
  have h := runH_inv ops (Dashboard.new start, [], []) h0
  obtain ⟨h1, h2⟩ := h
  rw [runH_fst ops (Dashboard.new start, [], [])] at h1 h2
  refine ⟨h1, h2, ?_, ?_⟩
  · rw [h1, lastN_length]; omega
  · rw [h2, lastN_length]; omega

/-- Claim C4: the reset key leaves zero total, empty counters, empty log
and empty score history, and does not change the session start time. -/
theorem reset_clears_stats_keeps_start (d : Dashboard) :
    (d.handleKey .keyR).total_events = 0 ∧
    (d.handleKey .keyR).event_counters = [] ∧
    (d.handleKey .keyR).process_counters = [] ∧
    (d.handleKey .keyR).events = [] ∧
    (d.handleKey .keyR).anomaly_scores = [] ∧
    (d.handleKey .keyR).start_time = d.start_time :=
  ⟨rfl, rfl, rfl, rfl, rfl, rfl⟩

/-- Claim C5: while paused, `add_event` changes nothing. -/
theorem paused_add_event_noop (d : Dashboard) (e : EventData)
    (h : d.paused = true) : d.add_event e = d := by
  unfold Dashboard.add_event
  simp [h]

/-- Claim C5 witness: a concrete paused dashboard absorbs an event
unchanged. -/
theorem paused_add_event_noop_witness :
    pausedDash.add_event sampleEvent = pausedDash :=
  paused_add_event_noop pausedDash sampleEvent rfl

/-- Claim C9: tab navigation wraps modulo 5 in both directions and digit
keys jump directly to the corresponding tab index. -/
theorem tab_navigation_wraps (d : Dashboard) (h : d.current_tab < 5) :
    (({ d with current_tab := 4 } : Dashboard).handleKey .keyTab).current_tab = 0 ∧
    (({ d with current_tab := 0 } : Dashboard).handleKey .keyBackTab).current_tab = 4 ∧
    (d.handleKey .keyTab).current_tab = (d.current_tab + 1) % 5 ∧
    (d.handleKey .keyBackTab).current_tab = (d.current_tab + 4) % 5 ∧
    (d.handleKey .key1).current_tab = 0 ∧
    (d.handleKey .key2).current_tab = 1 ∧
    (d.handleKey .key3).current_tab = 2 ∧
    (d.handleKey .key4).current_tab = 3 ∧
    (d.handleKey .key5).current_tab = 4 := by
  refine ⟨by simp [Dashboard.handleKey], by simp [Dashboard.handleKey],
    by simp [Dashboard.handleKey], ?_, by simp [Dashboard.handleKey],
    by simp [Dashboard.handleKey], by simp [Dashboard.handleKey],
    by simp [Dashboard.handleKey], by simp [Dashboard.handleKey]⟩
  simp only [Dashboard.handleKey]
  split <;> omega

/-- Claim C9 witness: the wrap equations at a concrete dashboard. -/
theorem tab_navigation_wraps_witness :
    (({ Dashboard.new 0 with current_tab := 4 } : Dashboard).handleKey
        .keyTab).current_tab = 0 ∧
    (({ Dashboard.new 0 with current_tab := 0 } : Dashboard).handleKey
        .keyBackTab).current_tab = 4 ∧
    ((Dashboard.new 0).handleKey .keyTab).current_tab =
      ((Dashboard.new 0).current_tab + 1) % 5 ∧
    ((Dashboard.new 0).handleKey .keyBackTab).current_tab =
      ((Dashboard.new 0).current_tab + 4) % 5 ∧
    ((Dashboard.new 0).handleKey .key1).current_tab = 0 ∧
    ((Dashboard.new 0).handleKey .key2).current_tab = 1 ∧
    ((Dashboard.new 0).handleKey .key3).current_tab = 2 ∧
    ((Dashboard.new 0).handleKey .key4).current_tab = 3 ∧
    ((Dashboard.new 0).handleKey .key5).current_tab = 4 :=
  tab_navigation_wraps (Dashboard.new 0) (by decide)

/-- Every key of `btreeIncr m k` is either `k` or a key of `m`. -/
theorem btreeIncr_keys_subset (m : List (String × Nat)) (k x : String)
    (hx : x ∈ (btreeIncr m k).map Prod.fst) : x = k ∨ x ∈ m.map Prod.fst := by
  induction m with
  | nil =>
    simp [btreeIncr] at hx
    exact Or.inl hx
  | cons p rest ih =>
    obtain ⟨k', v⟩ := p
    unfold btreeIncr at hx
    split at hx
    · simp at hx
      rcases hx with h | h | h
      · exact Or.inl h
      · exact Or.inr (by simp [h])
      · exact Or.inr (by simp [h])
    · split at hx
      · simp at hx
        rcases hx with h | h
        · exact Or.inr (by simp [h])
        · exact Or.inr (by simp [h])
      · simp at hx
        rcases hx with h | h
        · exact Or.inr (by simp [h])
        · rcases ih (by simpa using h) with h' | h'
          · exact Or.inl h'
          · exact Or.inr (by simp [h'])

/-- `btreeIncr` keeps the key list strictly sorted. -/
theorem btreeIncr_keysSorted (m : List (String × Nat)) (k : String)
    (h : keysSorted m) : keysSorted (btreeIncr m k) := by
  induction m with
  | nil => simp [btreeIncr, keysSorted]
  | cons p rest ih =>
    obtain ⟨k', v⟩ := p
    unfold keysSorted at h ⊢
    simp only [List.map_cons, List.pairwise_cons] at h
    obtain ⟨hk', hrest⟩ := h
    unfold btreeIncr
    split
    · -- new key goes in front: k < k' < everything else
      rename_i hlt
      simp only [List.map_cons, List.pairwise_cons]
      refine ⟨?_, hk', hrest⟩
      intro x hx
      simp at hx
      rcases hx with h | h
      · exact h ▸ hlt
      · exact lt_trans hlt (hk' x (by simpa using h))
    · split
      · -- existing key: structure unchanged
        simp only [List.map_cons, List.pairwise_cons]
        exact ⟨hk', hrest⟩
      · -- k' < k: recurse into the tail
        rename_i hnlt hne
        have hk'k : k' < k := by
          rcases lt_trichotomy k k' with h | h | h
          · exact absurd h hnlt
          · exact absurd h hne
          · exact h
        simp only [List.map_cons, List.pairwise_cons]
        refine ⟨?_, ih hrest⟩
        intro x hx
        rcases btreeIncr_keys_subset rest k x hx with h | h
        · exact h ▸ hk'k
        · exact hk' x h

/-- Category-counter keys stay sorted under every operation. -/
theorem step_keysSorted (d : Dashboard) (op : Op)
    (h : keysSorted d.event_counters) : keysSorted (d.step op).event_counters := by
  cases op with
  | ingest e =>
    show keysSorted (d.add_event e).event_counters
    unfold Dashboard.add_event
    split
    · exact h
    · exact btreeIncr_keysSorted d.event_counters e.event_type h
  | tick now => exact h
  | reset => simp [Dashboard.step, Dashboard.reset, keysSorted]
  | setPaused b => exact h

/-- Category-counter keys of any reachable state are sorted. -/
theorem run_keysSorted (ops : List Op) (d : Dashboard)
    (h : keysSorted d.event_counters) : keysSorted (run d ops).event_counters := by
  induction ops generalizing d with
  | nil => exact h
  | cons op rest ih => exact ih (d.step op) (step_keysSorted d op h)

/-- Claim C6: a feed line that is not decodable (JSON parse failure) is
dropped silently: no event is emitted, no error path exists
(`processLine` is a total function back into the dashboard state), and
the whole aggregator state — in particular `total_events` — is
unchanged. -/
theorem malformed_line_dropped_silently (d : Dashboard) (now : Nat) :
    processLine d now none = d ∧
    (processLine d now none).total_events = d.total_events :=
  ⟨rfl, rfl⟩

/-- Claim C7 counterexample: ingest an `"open"` event and then an
`"exec"` event, so the first-ingestion order of the categories is
`["open", "exec"]`; the Overview panel nevertheless lists
`["exec", "open"]` — the ascending key order of the `BTreeMap`, not
insertion order. -/
theorem overview_category_order_counterexample :
    overviewCategoryOrder
        (run (Dashboard.new 0) [Op.ingest openEvent, Op.ingest sampleEvent]) =
      ["exec", "open"] ∧
    (["exec", "open"] : List String) ≠ ["open", "exec"] := by
  have hlt : ("exec" : String) < "open" := by
    rw [String.lt_iff_toList_lt]
    decide
  constructor
  · simp [run, Dashboard.step, Dashboard.add_event, Dashboard.new, openEvent,
      sampleEvent, btreeIncr, pushBounded, overviewCategoryOrder, hlt]
  · decide

/-- Claim C7 as amended: the Overview tab lists the top-6 event
categories in ascending lexicographic order of category name (the
`BTreeMap` iteration order) — not in first-ingestion order and not
sorted by count — as the first six entries of the counter map, labelled
for display. -/
theorem overview_lists_categories_in_key_order (start : Nat) (ops : List Op) :
    ((run (Dashboard.new start) ops).event_counters.map Prod.fst).Pairwise (· < ·) ∧
    (overviewCategoryOrder (run (Dashboard.new start) ops)).Pairwise (· < ·) ∧
    renderEventRates (run (Dashboard.new start) ops) =
      ((run (Dashboard.new start) ops).event_counters.take 6).map
        (fun p => (eventLabel p.1, p.2)) := by
  have hs : keysSorted (run (Dashboard.new start) ops).event_counters :=
    run_keysSorted ops (Dashboard.new start) (by simp [Dashboard.new, keysSorted])
  refine ⟨hs, ?_, rfl⟩
  unfold overviewCategoryOrder
  rw [List.map_take]
  exact List.Pairwise.sublist (List.take_sublist 6 _) hs

/-- Claim C8: the threat scorer is a pure function of the four inputs
(total event count, elapsed seconds, category counters, system
snapshot): any two states and clock readings that agree on those four
yield the same score, whatever their event logs, actor counters, UI
flags or pause state; as a Lean function it has no side effects, which
mirrors the `&self` borrow in the source. -/
theorem score_pure_function_of_inputs (d1 d2 : Dashboard) (n1 n2 : Nat)
    (htot : d1.total_events = d2.total_events)
    (helapsed : n1 - d1.start_time = n2 - d2.start_time)
    (hcat : d1.event_counters = d2.event_counters)
    (hsys : d1.system_stats = d2.system_stats) :
    d1.calculate_anomaly_score n1 = d2.calculate_anomaly_score n2 := by
  unfold Dashboard.calculate_anomaly_score
  rw [htot, helapsed, hcat, hsys]

/-- Claim C8 witness: two concrete states sharing the four scorer inputs
but differing in log, actor counters, tab, help and pause agree on the
score. -/
theorem score_pure_function_of_inputs_witness :
    c8Left.calculate_anomaly_score 10 = c8Right.calculate_anomaly_score 10 :=
  score_pure_function_of_inputs c8Left c8Right 10 10 rfl rfl rfl rfl

/-- Claim C10: every line that parses as JSON — object or not — produces
an event: a parsed value of any shape is handed to `add_event`, and when
not paused the total count increments; any value on which none of the
five recognized fields extracts (non-objects, objects without the keys,
or keys bound to wrongly-typed values) yields the all-defaults event
(`etype` and `comm` `"unknown"`, empty `file`, `pid` and `uid` `0`); in
particular every non-object value does; only a parse failure leaves the
state untouched. -/
theorem any_parsed_json_yields_event (d : Dashboard) (now : Nat) (v : Json)
    (hp : d.paused = false) :
    processLine d now (some v) = d.add_event (extractEvent now v) ∧
    (processLine d now (some v)).total_events = d.total_events + 1 ∧
    ((v.member "etype").bind Json.asStr = none →
      (v.member "pid").bind Json.asU64 = none →
      (v.member "comm").bind Json.asStr = none →
      (v.member "file").bind Json.asStr = none →
      (v.member "uid").bind Json.asU64 = none →
      extractEvent now v =
        { timestamp := now, event_type := "unknown", pid := 0,
          comm := "unknown", file := "", uid := 0 }) ∧
    (v.isObj = false →
      extractEvent now v =
        { timestamp := now, event_type := "unknown", pid := 0,
          comm := "unknown", file := "", uid := 0 }) ∧
    processLine d now none = d := by
  refine ⟨rfl, ?_, ?_, ?_, rfl⟩
  · show (d.add_event (extractEvent now v)).total_events = d.total_events + 1
    unfold Dashboard.add_event
    simp [hp]
  · intro h1 h2 h3 h4 h5
    simp [extractEvent, h1, h2, h3, h4, h5]
  · intro hobj
    cases v
    case obj fields => simp [Json.isObj] at hobj
    all_goals rfl

/-- Claim C10 witness: the bare JSON number `42` (valid JSON, not an
object) produces the all-defaults event and bumps the total of a fresh
dashboard, while a parse failure changes nothing. -/
theorem any_parsed_json_yields_event_witness :
    processLine (Dashboard.new 0) 5 (some (Json.num 42)) =
      (Dashboard.new 0).add_event (extractEvent 5 (Json.num 42)) ∧
    (processLine (Dashboard.new 0) 5 (some (Json.num 42))).total_events =
      (Dashboard.new 0).total_events + 1 ∧
    extractEvent 5 (Json.num 42) =
      { timestamp := 5, event_type := "unknown", pid := 0,
        comm := "unknown", file := "", uid := 0 } ∧
    processLine (Dashboard.new 0) 5 none = Dashboard.new 0 :=
  ⟨(any_parsed_json_yields_event (Dashboard.new 0) 5 (Json.num 42) rfl).1,
   (any_parsed_json_yields_event (Dashboard.new 0) 5 (Json.num 42) rfl).2.1,
   (any_parsed_json_yields_event (Dashboard.new 0) 5 (Json.num 42) rfl).2.2.1
     rfl rfl rfl rfl rfl,
   (any_parsed_json_yields_event (Dashboard.new 0) 5 (Json.num 42) rfl).2.2.2.2⟩
